import Mathlib

/-!
Verification of the PRP orchestrator core (state derivation, action selection,
lock manager, and the revise/execute workflows) against its natural-language
specification.  The TypeScript sources are shallowly embedded: external
commands are modelled by an environment of `Except`-valued query results,
side-effecting workflows additionally return the list of operations they
performed, and JavaScript string operations are re-implemented over the
character list of a `String` so that every definition evaluates by kernel
reduction.
-/

namespace PRP

/-! ## JavaScript string operations

Modelled over `String.data` so that concrete evaluation works by `decide`.
`Char.toLower`/`Char.toUpper` agree with JavaScript on ASCII, which is the
only range the orchestrator manipulates (ids, labels, branch names). -/

/-- JavaScript `s.toLowerCase()`. -/
def jsToLower (s : String) : String := ⟨s.data.map Char.toLower⟩

/-- JavaScript `s.toUpperCase()`. -/
def jsToUpper (s : String) : String := ⟨s.data.map Char.toUpper⟩

/-- JavaScript `s.trim()`: strip whitespace from both ends. -/
def jsTrim (s : String) : String :=
  ⟨((s.data.dropWhile Char.isWhitespace).reverse.dropWhile Char.isWhitespace).reverse⟩

/-- JavaScript `s.split('\n')`. -/
def splitLines (s : String) : List String :=
  (s.data.splitOn '\n').map fun l => ⟨l⟩

/-- Remove the first occurrence of `pat` from `l` (JavaScript
`String.replace` with a plain-string pattern and empty replacement). -/
def removeFirstOccAux (pat : List Char) : List Char → List Char
  | [] => []
  | c :: cs =>
    if pat.isPrefixOf (c :: cs) then (c :: cs).drop pat.length
    else c :: removeFirstOccAux pat cs

/-- JavaScript `s.replace(pat, '')` for a plain-string `pat`. -/
def removeFirstOcc (pat : String) (s : String) : String :=
  ⟨removeFirstOccAux pat.data s.data⟩

/-! ## Data model (types.ts) -/

/-- Model of `MasterPRP` (types.ts): one declared work item of the master plan.
Optional structured fields that no modelled function reads
(acceptance criteria, file hints, notes) are omitted. -/
structure MasterPRP where
  id : String
  title : String
  scope : String
  depends_on : Option (List String)
deriving Repr, DecidableEq

/-- Model of `PRPState` (types.ts): the per-item state derived fresh on every run.
Lifecycle (`prState`) and decision (`reviewState`) keep their TypeScript
string representations (the source compares them with `===` on strings).
The `masterPrp` back-reference is omitted: no modelled function reads it. -/
structure PRPState where
  id : String
  title : String
  scope : String
  dependsOn : List String
  isEnriched : Bool
  enrichedFile : Option String
  branch : Option String
  prNumber : Option Nat
  prState : Option String
  reviewState : Option String
deriving Repr, DecidableEq

/-! ## Command execution (utils.ts) -/

/-- Embedding of `exec` (utils.ts).  The raw outcome of the underlying `execSync` call is
supplied by the environment as an `Except`: `.ok out` is the captured stdout,
`.error e` a thrown failure.  `exec` trims the output; with `silent: true` a
failure is swallowed and the empty string returned, otherwise it is
re-thrown. -/
def exec (raw : Except String String) (silent : Bool) : Except String String :=
  match raw with
  | .ok out => .ok (jsTrim out)
  | .error e => if silent then .ok "" else .error e

/-- A `gh ... --json` query run through `exec` with `silent: true` and decoded
with `safeJsonParse(_, [])` (utils.ts): a failed command returns `""`, which
parses to the fallback `[]`, so the caller always receives a list. -/
def ghListSilent {α : Type} (raw : Except String (List α)) : List α :=
  match raw with
  | .ok l => l
  | .error _ => []

/-! ## Lock manager (utils.ts, acquireLock / releaseLock) -/

/-- The on-disk lock marker: its filesystem modification time and content. -/
structure LockMarker where
  mtimeMs : Int
  content : String
deriving Repr, DecidableEq

/-- Environment of one `acquireLock` call: the existing marker (if any),
`Date.now()`, and `process.pid`. -/
structure LockEnv where
  marker : Option LockMarker
  nowMs : Int
  pid : Nat
deriving Repr, DecidableEq

/-- Filesystem operations `acquireLock` may perform, in order. -/
inductive LockOp where
  | unlink
  | write (content : String)
deriving Repr, DecidableEq

/-- The staleness threshold, `45 * 60 * 1000` ms — "45 minutes (longer than max operation)". -/
def lockMaxAgeMs : Int := 45 * 60 * 1000

/-- Content of a freshly written marker: `` `${process.pid}:${Date.now()}` ``. -/
def lockContent (env : LockEnv) : String :=
  toString env.pid ++ ":" ++ toString env.nowMs

/-- Embedding of `acquireLock` (utils.ts), returning the boolean result together with the
filesystem operations performed on the marker. -/
def acquireLock (env : LockEnv) : Bool × List LockOp :=
  match env.marker with
  | some m =>
    if env.nowMs - m.mtimeMs < lockMaxAgeMs then
      (false, [])
    else
      (true, [.unlink, .write (lockContent env)])
  | none => (true, [.write (lockContent env)])

/-! ## State derivation (state.ts, derivePRPState)

The three external queries (remote-branch listing, open-PR lookup by head
branch, merged-PR search by head prefix) are supplied by a `DeriveEnv`.
`.error` models a thrown command; the two `gh` queries are given
post-JSON-decoding, since `safeJsonParse` folds undecodable output into the
fallback `[]`. -/

/-- One record of `gh pr list --head ... --json number,state,reviewDecision,labels`
(`labels` is already projected to the label names, as the source does with
`l.name`). -/
structure PrListItem where
  number : Nat
  state : String
  reviewDecision : Option String
  labels : List String
deriving Repr, DecidableEq

/-- One record of `gh pr list --search "head:..." --state merged --json number`. -/
structure MergedListItem where
  number : Nat
deriving Repr, DecidableEq

/-- External-world snapshot consumed by one `derivePRPState` call. -/
structure DeriveEnv where
  enrichedExists : Bool
  enrichedDir : String
  branchesRaw : Except String String
  prListRaw : Except String (List PrListItem)
  mergedListRaw : Except String (List MergedListItem)

/-- The enriched-artifact path, `path.join(ctx.enrichedDir, prp.id + ".md")`. -/
def enrichedPath (enrichedDir id : String) : String :=
  enrichedDir ++ "/" ++ id ++ ".md"

/-- state.ts lines 44–58: the initial `PRPState` plus the enriched-file
existence check. -/
def initState (prp : MasterPRP) (env : DeriveEnv) : PRPState :=
  let st : PRPState :=
    { id := prp.id, title := prp.title, scope := prp.scope,
      dependsOn := prp.depends_on.getD [], isEnriched := false,
      enrichedFile := none, branch := none, prNumber := none,
      prState := none, reviewState := none }
  if env.enrichedExists then
    { st with isEnriched := true,
              enrichedFile := some (enrichedPath env.enrichedDir prp.id) }
  else st

/-- state.ts line 61: `` `auto/${prp.id.toLowerCase()}-` ``, the deterministic
remote-branch search pattern for a work item. -/
def branchPrefixOf (id : String) : String :=
  "auto/" ++ jsToLower id ++ "-"

/-- state.ts line 69: `branches.split('\n')[0].trim().replace('origin/', '')`. -/
def firstListedBranch (branches : String) : String :=
  removeFirstOcc "origin/" (jsTrim ((splitLines branches).headD ""))

/-- Body of the `try` block at state.ts lines 62–70: list remote branches
matching the prefix (a `silent` exec) and take the first match. -/
def branchStep (env : DeriveEnv) (st : PRPState) : Except String PRPState :=
  match exec env.branchesRaw true with
  | .error e => .error e
  | .ok branches =>
    if branches ≠ "" then .ok { st with branch := some (firstListedBranch branches) }
    else .ok st

/-- state.ts lines 88–106: derive the review decision of an open request,
preferring explicit labels over the platform review decision. -/
def deriveDecision (labelNames : List String) (reviewDecision : Option String) : String :=
  let labels := labelNames.map jsToLower
  if labels.contains "approved" || labels.contains "lgtm" then "approved"
  else if labels.contains "changes-requested" || labels.contains "needs-changes" then
    "changes_requested"
  else
    match reviewDecision with
    | some d =>
      let dec := jsToUpper d
      if dec == "APPROVED" then "approved"
      else if dec == "CHANGES_REQUESTED" then "changes_requested"
      else if dec == "REVIEW_REQUIRED" then "pending"
      else "none"
    | none => "none"

/-- Body of the `try` block at state.ts lines 77–107: look the PR up by head
branch and record number, lifecycle and decision of the first record. -/
def prStep (env : DeriveEnv) (st : PRPState) : Except String PRPState :=
  match ghListSilent env.prListRaw with
  | [] => .ok st
  | pr :: _ =>
    .ok { st with prNumber := some pr.number,
                  prState := some (jsToLower pr.state),
                  reviewState := some (deriveDecision pr.labels pr.reviewDecision) }

/-- Body of the `try` block at state.ts lines 115–128: secondary search for a
merged request whose head matches the branch search pattern. -/
def mergedStep (env : DeriveEnv) (st : PRPState) : Except String PRPState :=
  match ghListSilent env.mergedListRaw with
  | [] => .ok st
  | m :: _ => .ok { st with prNumber := some m.number, prState := some "merged" }

/-- Wrapper representing one try/catch block: a failing body keeps the prior state. -/
def tryStep (body : Except String PRPState) (st : PRPState) : PRPState :=
  match body with
  | .ok st2 => st2
  | .error _ => st

/-- The branch block of derivePRPState with its surrounding `try`/`catch`. -/
def branchPhase (env : DeriveEnv) (st : PRPState) : PRPState :=
  tryStep (branchStep env st) st

/-- The PR block: guarded by `if (state.branch)`, `try`/`catch` inside. -/
def prPhase (env : DeriveEnv) (st : PRPState) : PRPState :=
  match st.branch with
  | some _ => tryStep (prStep env st) st
  | none => st

/-- The merged-PR block: guarded by `if (!state.prNumber)`. -/
def mergedPhase (env : DeriveEnv) (st : PRPState) : PRPState :=
  match st.prNumber with
  | none => tryStep (mergedStep env st) st
  | some _ => st

/-- Embedding of `derivePRPState` (state.ts): derive one work item's current state from
the external systems.  The result is an `Except` so that an uncaught failure
would be visible; every risky block is wrapped in its own `try`/`catch`, so
derivation in fact always returns `.ok`. -/
def derivePRPState (prp : MasterPRP) (env : DeriveEnv) : Except String PRPState :=
  .ok (mergedPhase env (prPhase env (branchPhase env (initState prp env))))

/-! ## Selectors over derived state (state.ts lines 175–247) -/

/-- Embedding of `isComplete` (state.ts): all PRPs merged. -/
def isComplete (states : List PRPState) : Bool :=
  states.all fun s => s.prState == some "merged"

/-- Embedding of `getMergedIds` (state.ts): ids of merged PRPs plus the pre-declared
completed ids (the `Set` is modelled by a list used only for membership;
an absent `completed` argument is the empty list). -/
def getMergedIds (states : List PRPState) (completed : List String) : List String :=
  ((states.filter fun s => s.prState == some "merged").map fun s => s.id) ++ completed

/-- Embedding of `findNextPRP` (state.ts): first PRP that is neither merged nor open and
whose dependencies are all satisfied. -/
def findNextPRP (states : List PRPState) (completed : List String) : Option PRPState :=
  let mergedIds := getMergedIds states completed
  states.find? fun s =>
    !(s.prState == some "merged" || s.prState == some "open") &&
      s.dependsOn.all fun dep => mergedIds.contains dep

/-- Predicate of `findApprovedPRP`: open request with decision approved. -/
def isOpenApproved (s : PRPState) : Bool :=
  s.prState == some "open" && s.reviewState == some "approved"

/-- Predicate of `findChangesRequestedPRP`. -/
def isOpenChangesRequested (s : PRPState) : Bool :=
  s.prState == some "open" && s.reviewState == some "changes_requested"

/-- Predicate of `findPendingReviewPRP`: open request with decision pending
or none. -/
def isOpenPendingReview (s : PRPState) : Bool :=
  s.prState == some "open" &&
    (s.reviewState == some "pending" || s.reviewState == some "none")

/-- Embedding of `findApprovedPRP` (state.ts). -/
def findApprovedPRP (states : List PRPState) : Option PRPState :=
  states.find? isOpenApproved

/-- Embedding of `findChangesRequestedPRP` (state.ts). -/
def findChangesRequestedPRP (states : List PRPState) : Option PRPState :=
  states.find? isOpenChangesRequested

/-- Embedding of `findPendingReviewPRP` (state.ts). -/
def findPendingReviewPRP (states : List PRPState) : Option PRPState :=
  states.find? isOpenPendingReview

/-! ## Action selection (orchestrator.ts, executeNextAction)

`executeNextAction` interleaves the decision with the side-effecting
workflows; the decision itself is the pure priority cascade below
(the tagged-variant form the specification assumes). -/

/-- The action selected for one run cycle.  `halt` is the "no action"
outcome (`None` in the specification's contract). -/
inductive Action where
  | merge (s : PRPState)
  | revise (s : PRPState)
  | wait (s : PRPState)
  | enrich (s : PRPState)
  | execute (s : PRPState)
  | halt
deriving Repr, DecidableEq

/-- The decision procedure of `executeNextAction` (orchestrator.ts lines
122–168): strict priority, first match wins. -/
def selectNext (states : List PRPState) (completed : List String) : Action :=
  match findApprovedPRP states with
  | some approved => .merge approved
  | none =>
    match findChangesRequestedPRP states with
    | some changesRequested => .revise changesRequested
    | none =>
      match findPendingReviewPRP states with
      | some pendingReview => .wait pendingReview
      | none =>
        match findNextPRP states completed with
        | some nextPRP => if !nextPRP.isEnriched then .enrich nextPRP else .execute nextPRP
        | none => .halt

/-! ## Execute workflow: branch construction (actions.ts lines 432–438) -/

/-- Characters kept by the slug regex `[^a-z0-9]+` (after lower-casing). -/
def isSlugKeepChar (c : Char) : Bool :=
  (decide ('a' ≤ c) && decide (c ≤ 'z')) || (decide ('0' ≤ c) && decide (c ≤ '9'))

/-- The slug replacement `replace(/[^a-z0-9]+/g, "-")`: collapse each maximal run of non-kept
characters into a single hyphen.  The flag records whether we are inside
such a run. -/
def collapseNonAlnum : Bool → List Char → List Char
  | _, [] => []
  | inRun, c :: cs =>
    if isSlugKeepChar c then c :: collapseNonAlnum false cs
    else if inRun then collapseNonAlnum true cs
    else '-' :: collapseNonAlnum true cs

/-- The edge replacement `replace(/^-|-$/g, "")`: drop one leading and one trailing hyphen. -/
def stripEdgeDash (l : List Char) : List Char :=
  let l1 := match l with
    | '-' :: rest => rest
    | other => other
  (match l1.reverse with
    | '-' :: rest => rest
    | other => other).reverse

/-- actions.ts lines 433–437: the title slug
(`toLowerCase`, collapse non-alphanumerics, strip edge hyphens, `slice(0, 30)`). -/
def branchSlug (title : String) : String :=
  ⟨(stripEdgeDash (collapseNonAlnum false (jsToLower title).data)).take 30⟩

/-- actions.ts line 438: `` `auto/${prp.id.toLowerCase()}-${branchSlug}` ``,
the branch the Execute workflow creates (or reuses) for a work item. -/
def executeBranchName (prp : PRPState) : String :=
  "auto/" ++ jsToLower prp.id ++ "-" ++ branchSlug prp.title

/-! ## Revise workflow (actions.ts, runRevision)

The workflow is modelled as a function of the review-feedback queries and
the outcomes of the individual git/gh commands, returning the sequence of
operations it performed (or the propagated thrown error). -/

/-- One review of `gh pr view --json reviews`. -/
structure PrReview where
  state : String
  body : String
deriving Repr, DecidableEq

/-- One discussion comment of `gh pr view --json comments`. -/
structure PrComment where
  body : String
deriving Repr, DecidableEq

/-- Decoded result of `gh pr view ... --json reviews,comments`. -/
structure PrViewData where
  reviews : List PrReview
  comments : List PrComment
deriving Repr, DecidableEq

/-- External-world snapshot consumed by one `runRevision` call. -/
structure RevisionEnv where
  botConfigured : Bool
  prViewRaw : Except String PrViewData
  inlineRaw : Except String String
  fetchRaw : Except String String
  checkoutRaw : Except String String
  pullRaw : Except String String
  claudeSuccess : Bool
  addRaw : Except String String
  statusRaw : Except String String
  commitRaw : Except String String
  pushRaw : Except String String
  commentRaw : Except String String
  checkoutDefaultRaw : Except String String

/-- Observable operations of the Revise workflow, in execution order. -/
inductive RevOp where
  | configureBot
  | fetch
  | checkoutBranch (branch : Option String)
  | pull
  | writeFeedback
  | runAgent
  | gitAdd
  | commit
  | push
  | comment
  | checkoutDefault
deriving Repr, DecidableEq

/-- actions.ts lines 96–101: bodies of the "Request Changes" reviews. -/
def reviewFeedbackText (d : PrViewData) : String :=
  String.intercalate "\n\n"
    (((d.reviews.filter fun r => r.state == "CHANGES_REQUESTED").map fun r => r.body).filter
      fun b => b ≠ "")

/-- actions.ts lines 115–116: the general PR discussion comments. -/
def prCommentsText (d : PrViewData) : String :=
  String.intercalate "\n" (d.comments.map fun c => "- " ++ c.body)

/-- actions.ts lines 104–112: the inline-comment query, a `silent` exec in a
`try`/`catch` — a failure degrades to the empty string. -/
def inlineCommentsOf (env : RevisionEnv) : String :=
  match exec env.inlineRaw true with
  | .ok s => s
  | .error _ => ""

/-- actions.ts lines 118–124: concatenation of the three feedback sections,
skipping empty ones. -/
def allFeedbackText (d : PrViewData) (inlineComments : String) : String :=
  String.intercalate "\n\n"
    (([if reviewFeedbackText d ≠ "" then "## Review Feedback\n" ++ reviewFeedbackText d else "",
       if inlineComments ≠ "" then "## Inline Comments\n" ++ inlineComments else "",
       if prCommentsText d ≠ "" then "## Discussion\n" ++ prCommentsText d else ""]).filter
      fun sec => sec ≠ "")

/-- Embedding of `runRevision` (actions.ts lines 79–207): collect feedback, bail out as
a no-op when there is none, otherwise check out the branch, run the coding
agent, and commit/push/comment when the working tree changed.  `.error`
models a thrown failure; every non-`silent` command can throw, the pull at
line 136 and the status listing are `silent`/caught and cannot. -/
def runRevision (prp : PRPState) (env : RevisionEnv) : Except String (List RevOp) :=
  let ops0 : List RevOp := if env.botConfigured then [.configureBot] else []
  match env.prViewRaw with
  | .error e => .error e
  | .ok prData =>
    if jsTrim (allFeedbackText prData (inlineCommentsOf env)) == "" then
      .ok ops0
    else
      match exec env.fetchRaw false with
      | .error e => .error e
      | .ok _ =>
        match exec env.checkoutRaw false with
        | .error e => .error e
        | .ok _ =>
          let ops1 := ops0 ++
            [.fetch, .checkoutBranch prp.branch, .pull, .writeFeedback, .runAgent]
          if !env.claudeSuccess then
            match exec env.checkoutDefaultRaw false with
            | .error e => .error e
            | .ok _ => .error "Revision failed"
          else
            match exec env.addRaw false with
            | .error e => .error e
            | .ok _ =>
              let hasChanges :=
                match exec env.statusRaw true with
                | .ok s => s
                | .error _ => ""
              if hasChanges ≠ "" then
                match exec env.commitRaw false with
                | .error e => .error e
                | .ok _ =>
                  match exec env.pushRaw false with
                  | .error e => .error e
                  | .ok _ =>
                    match exec env.commentRaw false with
                    | .error e => .error e
                    | .ok _ =>
                      match exec env.checkoutDefaultRaw false with
                      | .error e => .error e
                      | .ok _ =>
                        .ok (ops1 ++ [.gitAdd, .commit, .push, .comment, .checkoutDefault])
              else
                match exec env.checkoutDefaultRaw false with
                | .error e => .error e
                | .ok _ => .ok (ops1 ++ [.gitAdd, .checkoutDefault])

/-! ## Specification-side completion predicate (for refinement comparison)

`specIsComplete` follows the specification's words, not the source: "every
item's derived lifecycle is merged, including items resolved as merged only
via a pre-declared completed set, which must still require no open/closed
request for those ids". -/

/-- Completion predicate as worded by the specification: an item counts when
its derived lifecycle is merged, or when it is pre-declared completed and no
review request exists for it. -/
def specIsComplete (states : List PRPState) (completed : List String) : Bool :=
  states.all fun s =>
    s.prState == some "merged" || (completed.contains s.id && s.prNumber == none)

/-! ## Helper lemmas -/

/-- If a member satisfies the predicate, `find?` yields something. -/
theorem find?_isSome_of_mem {α : Type} {p : α → Bool} {l : List α} {a : α}
    (ha : a ∈ l) (hpa : p a = true) : ∃ b, l.find? p = some b ∧ p b = true := by
  cases h : l.find? p with
  | none => exact absurd hpa (List.find?_eq_none.mp h a ha)
  | some b => exact ⟨b, rfl, List.find?_some h⟩

/-- Concrete fixtures used by witnesses and counterexamples. -/
def preCompletedOnly : PRPState :=
  { id := "A", title := "T", scope := "S", dependsOn := [], isEnriched := false,
    enrichedFile := none, branch := none, prNumber := none, prState := none,
    reviewState := none }

/-! ## C2 -/

/-- C2 counterexample: for the plan item `A` with no review request at all
but pre-declared completed (`completed = [A]`), the specification's
completion predicate holds, yet `isComplete` returns false — `isComplete`
never consults the pre-declared completed set. -/
theorem isComplete_ignores_completed_counterexample :
    specIsComplete [preCompletedOnly] ["A"] = true ∧
      isComplete [preCompletedOnly] = false := by decide

/-- C2 (amended): `isComplete(states)` returns true if and only if every
declared item's derived lifecycle is merged; items resolved only via the
plan's pre-declared completed set do not count as merged for `isComplete`
(the pre-declared set feeds dependency gating only). -/
theorem isComplete_iff_all_merged (states : List PRPState) :
    isComplete states = true ↔ ∀ s ∈ states, s.prState = some "merged" := by
  simp [isComplete, List.all_eq_true]

/-! ## C7 -/

/-- C7: `acquire(lockFile)` returns false, performing no filesystem
operation on the marker, exactly when a marker exists whose age is below
45 minutes; when the marker is 45 minutes old or older it is removed first
and a fresh marker (owner pid and acquisition time) is written, returning
true; when no marker exists a fresh marker is written and true returned. -/
theorem acquireLock_spec (env : LockEnv) :
    (∀ m, env.marker = some m → env.nowMs - m.mtimeMs < lockMaxAgeMs →
      acquireLock env = (false, [])) ∧
    (∀ m, env.marker = some m → lockMaxAgeMs ≤ env.nowMs - m.mtimeMs →
      acquireLock env = (true, [.unlink, .write (lockContent env)])) ∧
    (env.marker = none → acquireLock env = (true, [.write (lockContent env)])) ∧
    ((acquireLock env).1 = false →
      ∃ m, env.marker = some m ∧ env.nowMs - m.mtimeMs < lockMaxAgeMs) := by
  refine ⟨?_, ?_, ?_, ?_⟩
  · intro m hm hage
    simp [acquireLock, hm, hage]
  · intro m hm hage
    simp [acquireLock, hm, not_lt.mpr hage]
  · intro h
    simp [acquireLock, h]
  · intro hfalse
    cases hm : env.marker with
    | none => simp [acquireLock, hm] at hfalse
    | some m =>
      by_cases hage : env.nowMs - m.mtimeMs < lockMaxAgeMs
      · exact ⟨m, hm ▸ rfl, hage⟩
      · simp [acquireLock, hm, hage] at hfalse

/-- C7 witness: a marker 1 second old blocks acquisition with no
filesystem operation. -/
theorem acquireLock_spec_witness :
    acquireLock { marker := some { mtimeMs := 0, content := "9:0" }, nowMs := 1000, pid := 9 } =
      (false, []) :=
  (acquireLock_spec _).1 { mtimeMs := 0, content := "9:0" } rfl (by decide)

/-! ## C10 -/

/-- C10: the branch name constructed by the Execute workflow,
`auto/` + lower-cased id + `-` + title slug, begins with exactly the search
pattern `auto/` + lower-cased id + `-` that `derivePRPState` uses to query
remote branches, so a branch created by Execute is matched by the next
derivation pass. -/
theorem executeBranch_matches_derive_pattern (prp : PRPState) :
    executeBranchName prp = branchPrefixOf prp.id ++ branchSlug prp.title ∧
    ∃ rest, (executeBranchName prp).data = (branchPrefixOf prp.id).data ++ rest := by
  constructor
  · unfold executeBranchName branchPrefixOf
    simp [String.append_assoc]
  · refine ⟨(branchSlug prp.title).data, ?_⟩
    unfold executeBranchName branchPrefixOf
    simp [String.data_append, List.append_assoc]

/-! ## Selector cascade lemmas -/

/-- When the predicate fails everywhere, `find?` misses. -/
theorem find?_none_of_all {α : Type} {p : α → Bool} {l : List α}
    (h : ∀ x ∈ l, p x = false) : l.find? p = none :=
  List.find?_eq_none.mpr fun x hx => by simp [h x hx]

theorem selectNext_eq_merge {states : List PRPState} {completed : List String} {t : PRPState}
    (h : findApprovedPRP states = some t) : selectNext states completed = .merge t := by
  simp [selectNext, h]

theorem selectNext_eq_revise {states : List PRPState} {completed : List String} {t : PRPState}
    (h1 : findApprovedPRP states = none) (h2 : findChangesRequestedPRP states = some t) :
    selectNext states completed = .revise t := by
  simp [selectNext, h1, h2]

theorem selectNext_eq_wait {states : List PRPState} {completed : List String} {t : PRPState}
    (h1 : findApprovedPRP states = none) (h2 : findChangesRequestedPRP states = none)
    (h3 : findPendingReviewPRP states = some t) :
    selectNext states completed = .wait t := by
  simp [selectNext, h1, h2, h3]

theorem selectNext_eq_tier4 {states : List PRPState} {completed : List String}
    (h1 : findApprovedPRP states = none) (h2 : findChangesRequestedPRP states = none)
    (h3 : findPendingReviewPRP states = none) :
    selectNext states completed =
      (match findNextPRP states completed with
       | some n => if !n.isEnriched then .enrich n else .execute n
       | none => .halt) := by
  simp [selectNext, h1, h2, h3]

/-- Enrich/Execute is only emitted for the item `findNextPRP` returned. -/
theorem selectNext_work_inv {states : List PRPState} {completed : List String} {s : PRPState}
    (h : selectNext states completed = Action.enrich s ∨
      selectNext states completed = Action.execute s) :
    findNextPRP states completed = some s := by
  unfold selectNext at h
  cases hA : findApprovedPRP states with
  | some t => simp only [hA] at h; simp at h
  | none =>
  simp only [hA] at h
  cases hC : findChangesRequestedPRP states with
  | some t => simp only [hC] at h; simp at h
  | none =>
  simp only [hC] at h
  cases hP : findPendingReviewPRP states with
  | some t => simp only [hP] at h; simp at h
  | none =>
  simp only [hP] at h
  cases hN : findNextPRP states completed with
  | none => simp only [hN] at h; simp at h
  | some n =>
  simp only [hN] at h
  by_cases hE : n.isEnriched
  · simp [hE] at h
    exact h ▸ rfl
  · simp [hE] at h
    exact h ▸ rfl

/-! ## C1 -/

/-- C1: the action selector evaluates a strict priority order with first
match winning: if any derived state has an open request with decision
approved, Merge of the first such item (in declaration order) is chosen;
otherwise, a changes-requested open request yields Revise; otherwise an
open request with decision pending or none yields Wait; only when no tier
matches is an Enrich-or-Execute candidate (or halt) considered.  In
particular, with both an approved and a changes-requested request present,
Merge is chosen, never Revise. -/
theorem selectNext_strict_priority (states : List PRPState) (completed : List String) :
    ((∃ s ∈ states, isOpenApproved s = true) →
      ∃ t l1 l2, states = l1 ++ t :: l2 ∧ isOpenApproved t = true ∧
        (∀ x ∈ l1, isOpenApproved x = false) ∧
        selectNext states completed = Action.merge t) ∧
    ((∀ s ∈ states, isOpenApproved s = false) →
      (∃ s ∈ states, isOpenChangesRequested s = true) →
      ∃ t l1 l2, states = l1 ++ t :: l2 ∧ isOpenChangesRequested t = true ∧
        (∀ x ∈ l1, isOpenChangesRequested x = false) ∧
        selectNext states completed = Action.revise t) ∧
    ((∀ s ∈ states, isOpenApproved s = false) →
      (∀ s ∈ states, isOpenChangesRequested s = false) →
      (∃ s ∈ states, isOpenPendingReview s = true) →
      ∃ t, isOpenPendingReview t = true ∧ selectNext states completed = Action.wait t) ∧
    ((∀ s ∈ states, isOpenApproved s = false ∧ isOpenChangesRequested s = false ∧
        isOpenPendingReview s = false) →
      selectNext states completed = Action.halt ∨
        ∃ t, selectNext states completed = Action.enrich t ∨
          selectNext states completed = Action.execute t) ∧
    ((∃ s ∈ states, isOpenApproved s = true) →
      (∃ s ∈ states, isOpenChangesRequested s = true) →
      ∃ t, selectNext states completed = Action.merge t) := by
  have hmerge : (∃ s ∈ states, isOpenApproved s = true) →
      ∃ t l1 l2, states = l1 ++ t :: l2 ∧ isOpenApproved t = true ∧
        (∀ x ∈ l1, isOpenApproved x = false) ∧
        selectNext states completed = Action.merge t := by
    rintro ⟨s, hs, hps⟩
    obtain ⟨t, ht, hpt⟩ := find?_isSome_of_mem hs hps
    obtain ⟨_, l1, l2, hsplit, hl1⟩ := List.find?_eq_some.mp ht
    refine ⟨t, l1, l2, hsplit, hpt, ?_, selectNext_eq_merge ht⟩
    intro x hx
    simpa using hl1 x hx
  refine ⟨hmerge, ?_, ?_, ?_, ?_⟩
  · rintro hA ⟨s, hs, hps⟩
    obtain ⟨t, ht, hpt⟩ := find?_isSome_of_mem hs hps
    obtain ⟨_, l1, l2, hsplit, hl1⟩ := List.find?_eq_some.mp ht
    refine ⟨t, l1, l2, hsplit, hpt, ?_, selectNext_eq_revise (find?_none_of_all hA) ht⟩
    intro x hx
    simpa using hl1 x hx
  · rintro hA hC ⟨s, hs, hps⟩
    obtain ⟨t, ht, hpt⟩ := find?_isSome_of_mem hs hps
    exact ⟨t, hpt, selectNext_eq_wait (find?_none_of_all hA) (find?_none_of_all hC) ht⟩
  · intro h
    rw [selectNext_eq_tier4 (find?_none_of_all fun s hs => (h s hs).1)
      (find?_none_of_all fun s hs => (h s hs).2.1)
      (find?_none_of_all fun s hs => (h s hs).2.2)]
    cases hN : findNextPRP states completed with
    | none => exact Or.inl rfl
    | some n =>
      refine Or.inr ⟨n, ?_⟩
      by_cases hE : n.isEnriched
      · exact Or.inr (by simp [hE])
      · exact Or.inl (by simp [hE])
  · intro hA hC
    obtain ⟨t, _, _, _, _, _, hsel⟩ := hmerge hA
    exact ⟨t, hsel⟩

/-- Fixture: an open, approved request. -/
def stApprovedW : PRPState :=
  { id := "B", title := "B", scope := "S", dependsOn := [], isEnriched := true,
    enrichedFile := some "PRPs/enriched/B.md", branch := some "auto/b-b",
    prNumber := some 2, prState := some "open", reviewState := some "approved" }

/-- Fixture: an open, changes-requested request. -/
def stChangesW : PRPState :=
  { id := "C", title := "C", scope := "S", dependsOn := [], isEnriched := true,
    enrichedFile := some "PRPs/enriched/C.md", branch := some "auto/c-c",
    prNumber := some 3, prState := some "open", reviewState := some "changes_requested" }

/-- C1 witness: with a changes-requested item listed before an approved one,
the selector still chooses Merge. -/
theorem selectNext_strict_priority_witness :
    ∃ t, selectNext [stChangesW, stApprovedW] [] = Action.merge t :=
  (selectNext_strict_priority [stChangesW, stApprovedW] []).2.2.2.2
    ⟨stApprovedW, by decide, by decide⟩ ⟨stChangesW, by decide, by decide⟩

/-! ## C5 -/

/-- C5: an item one of whose dependencies is neither derived as merged nor
listed in the pre-declared completed set is never returned by `findNextPRP`,
and hence never selected for Enrich or Execute. -/
theorem findNextPRP_dependency_gating (states : List PRPState) (completed : List String)
    (s : PRPState) (dep : String) (hdep : dep ∈ s.dependsOn)
    (hnotmerged : ∀ t ∈ states, ¬(t.id = dep ∧ t.prState = some "merged"))
    (hnotpre : dep ∉ completed) :
    findNextPRP states completed ≠ some s ∧
    selectNext states completed ≠ Action.enrich s ∧
    selectNext states completed ≠ Action.execute s := by
  have hmain : findNextPRP states completed ≠ some s := by
    intro h
    have hp := List.find?_some h
    rw [Bool.and_eq_true, List.all_eq_true] at hp
    have hc := hp.2 dep hdep
    simp only [List.contains_iff_exists_mem_beq] at hc
    obtain ⟨dep2, hdep2, hbeq⟩ := hc
    rw [beq_iff_eq] at hbeq
    subst hbeq
    unfold getMergedIds at hdep2
    rcases List.mem_append.mp hdep2 with hl | hr
    · obtain ⟨t, htf, hid⟩ := List.mem_map.mp hl
      obtain ⟨hts, htm⟩ := List.mem_filter.mp htf
      exact hnotmerged t hts ⟨hid, by simpa using htm⟩
    · exact hnotpre hr
  exact ⟨hmain, fun h => hmain (selectNext_work_inv (Or.inl h)),
    fun h => hmain (selectNext_work_inv (Or.inr h))⟩

/-! ## Derivation phase lemmas -/

theorem initState_fields (prp : MasterPRP) (env : DeriveEnv) :
    (initState prp env).branch = none ∧ (initState prp env).prNumber = none ∧
    (initState prp env).prState = none ∧ (initState prp env).reviewState = none := by
  unfold initState
  split <;> exact ⟨rfl, rfl, rfl, rfl⟩

/-- The branch phase either leaves the state alone or only sets `branch`. -/
theorem branchPhase_eq (env : DeriveEnv) (st : PRPState) :
    branchPhase env st = st ∨
      ∃ b, branchPhase env st = { st with branch := some b } := by
  unfold branchPhase branchStep tryStep
  cases hraw : exec env.branchesRaw true with
  | error e => exact Or.inl rfl
  | ok branches =>
    by_cases hb : branches ≠ ""
    · exact Or.inr ⟨firstListedBranch branches, by simp [hb]⟩
    · simp only [ne_eq, not_not] at hb
      exact Or.inl (by simp [hb])

/-- The PR phase either leaves the state alone or, when a branch is present
and the query returned a record, sets number, lifecycle and decision. -/
theorem prPhase_eq (env : DeriveEnv) (st : PRPState) :
    prPhase env st = st ∨
      ∃ pr rest, st.branch ≠ none ∧ ghListSilent env.prListRaw = pr :: rest ∧
        prPhase env st =
          { st with prNumber := some pr.number,
                    prState := some (jsToLower pr.state),
                    reviewState := some (deriveDecision pr.labels pr.reviewDecision) } := by
  unfold prPhase prStep tryStep
  cases hbr : st.branch with
  | none => exact Or.inl rfl
  | some b =>
    cases hl : ghListSilent env.prListRaw with
    | nil => exact Or.inl (by simp)
    | cons pr rest => exact Or.inr ⟨pr, rest, by simp [hbr], rfl, by simp⟩

/-- The merged phase either leaves the state alone or, when no request was
found yet and the search returned a record, marks the item merged. -/
theorem mergedPhase_eq (env : DeriveEnv) (st : PRPState) :
    mergedPhase env st = st ∨
      ∃ m rest, st.prNumber = none ∧ ghListSilent env.mergedListRaw = m :: rest ∧
        mergedPhase env st = { st with prNumber := some m.number, prState := some "merged" } := by
  unfold mergedPhase mergedStep tryStep
  cases hn : st.prNumber with
  | some k => exact Or.inl rfl
  | none =>
    cases hl : ghListSilent env.mergedListRaw with
    | nil => exact Or.inl (by simp)
    | cons m rest => exact Or.inr ⟨m, rest, rfl, rfl, by simp⟩

theorem branchPhase_prNumber (env : DeriveEnv) (st : PRPState) :
    (branchPhase env st).prNumber = st.prNumber := by
  rcases branchPhase_eq env st with h | ⟨b, h⟩ <;> rw [h]

theorem branchPhase_prState (env : DeriveEnv) (st : PRPState) :
    (branchPhase env st).prState = st.prState := by
  rcases branchPhase_eq env st with h | ⟨b, h⟩ <;> rw [h]

theorem branchPhase_reviewState (env : DeriveEnv) (st : PRPState) :
    (branchPhase env st).reviewState = st.reviewState := by
  rcases branchPhase_eq env st with h | ⟨b, h⟩ <;> rw [h]

theorem prPhase_branch (env : DeriveEnv) (st : PRPState) :
    (prPhase env st).branch = st.branch := by
  rcases prPhase_eq env st with h | ⟨pr, rest, _, _, h⟩ <;> rw [h]

theorem mergedPhase_branch (env : DeriveEnv) (st : PRPState) :
    (mergedPhase env st).branch = st.branch := by
  rcases mergedPhase_eq env st with h | ⟨m, rest, _, _, h⟩ <;> rw [h]

theorem mergedPhase_reviewState (env : DeriveEnv) (st : PRPState) :
    (mergedPhase env st).reviewState = st.reviewState := by
  rcases mergedPhase_eq env st with h | ⟨m, rest, _, _, h⟩ <;> rw [h]

/-- A failed branch query leaves the state untouched (silent exec returns
the empty listing). -/
theorem branchPhase_error {env : DeriveEnv} (st : PRPState) {e : String}
    (he : env.branchesRaw = .error e) : branchPhase env st = st := by
  unfold branchPhase branchStep tryStep exec
  rw [he]
  rfl

/-- A failed PR query leaves the state untouched. -/
theorem prPhase_error {env : DeriveEnv} (st : PRPState) {e : String}
    (he : env.prListRaw = .error e) : prPhase env st = st := by
  unfold prPhase prStep tryStep ghListSilent
  cases hb : st.branch with
  | none => rfl
  | some b =>
    rw [he]

/-- A failed merged-PR search leaves the state untouched. -/
theorem mergedPhase_error {env : DeriveEnv} (st : PRPState) {e : String}
    (he : env.mergedListRaw = .error e) : mergedPhase env st = st := by
  unfold mergedPhase mergedStep tryStep ghListSilent
  cases hn : st.prNumber with
  | some k => rfl
  | none => rw [he]

/-- The derived decision `deriveDecision` always yields one of the four decision values. -/
theorem deriveDecision_mem (labels : List String) (d : Option String) :
    deriveDecision labels d = "approved" ∨ deriveDecision labels d = "changes_requested" ∨
    deriveDecision labels d = "pending" ∨ deriveDecision labels d = "none" := by
  unfold deriveDecision
  cases d with
  | none => dsimp only; split_ifs <;> simp
  | some s => dsimp only; split_ifs <;> simp

/-- Every derivation result has one of three shapes: untouched by both PR
phases, set by the branch-based PR query (which then always sets the
decision and requires a branch), or set by the secondary merged search
(which never sets a decision). -/
theorem derivedState_shape (prp : MasterPRP) (env : DeriveEnv) (st : PRPState)
    (h : derivePRPState prp env = .ok st) :
    (st.prNumber = none ∧ st.prState = none ∧ st.reviewState = none) ∨
    (∃ pr : PrListItem, st.branch ≠ none ∧ st.prNumber = some pr.number ∧
      st.prState = some (jsToLower pr.state) ∧
      st.reviewState = some (deriveDecision pr.labels pr.reviewDecision)) ∨
    (st.reviewState = none ∧ ∃ m : MergedListItem,
      st.prNumber = some m.number ∧ st.prState = some "merged") := by
  unfold derivePRPState at h
  obtain rfl : mergedPhase env (prPhase env (branchPhase env (initState prp env))) = st := by
    injection h
  have h1 : (branchPhase env (initState prp env)).prNumber = none ∧
      (branchPhase env (initState prp env)).prState = none ∧
      (branchPhase env (initState prp env)).reviewState = none := by
    rw [branchPhase_prNumber, branchPhase_prState, branchPhase_reviewState]
    exact ⟨(initState_fields prp env).2.1, (initState_fields prp env).2.2.1,
      (initState_fields prp env).2.2.2⟩
  rcases prPhase_eq env (branchPhase env (initState prp env)) with hp | ⟨pr, rest, hbr, _, hp⟩
  · rw [hp]
    rcases mergedPhase_eq env (branchPhase env (initState prp env)) with hm | ⟨m, r2, _, _, hm⟩
    · rw [hm]
      exact Or.inl h1
    · rw [hm]
      exact Or.inr (Or.inr ⟨h1.2.2, m, rfl, rfl⟩)
  · rw [hp]
    exact Or.inr (Or.inl ⟨pr, hbr, rfl, rfl, rfl⟩)

/-! ## C6 -/

/-- C6: state derivation is total over external query failures — for every
work-item spec and environment it returns a `WorkItemState` (never an
error), and a failing branch query, review-request query, or merged-request
query only degrades the corresponding sub-result to absent. -/
theorem derivePRPState_total_and_degrading (prp : MasterPRP) (env : DeriveEnv) :
    ∃ st, derivePRPState prp env = .ok st ∧
      ((∃ e, env.branchesRaw = .error e) → st.branch = none) ∧
      ((∃ e, env.prListRaw = .error e) → st.reviewState = none) ∧
      ((∃ e, env.prListRaw = .error e) → (∃ e, env.mergedListRaw = .error e) →
        st.prNumber = none ∧ st.prState = none) := by
  refine ⟨_, rfl, ?_, ?_, ?_⟩
  · rintro ⟨e, he⟩
    rw [mergedPhase_branch, prPhase_branch, branchPhase_error _ he]
    exact (initState_fields prp env).1
  · rintro ⟨e, he⟩
    rw [mergedPhase_reviewState, prPhase_error _ he, branchPhase_reviewState]
    exact (initState_fields prp env).2.2.2
  · rintro ⟨e, he⟩ ⟨e2, he2⟩
    rw [mergedPhase_error _ he2, prPhase_error _ he]
    rw [branchPhase_prNumber, branchPhase_prState]
    exact ⟨(initState_fields prp env).2.1, (initState_fields prp env).2.2.1⟩

/-- Fixture: a master-plan item. -/
def prpW : MasterPRP := { id := "A", title := "T", scope := "S", depends_on := none }

/-- Fixture: an environment in which every external query fails. -/
def envAllFail : DeriveEnv :=
  { enrichedExists := false, enrichedDir := "PRPs/enriched",
    branchesRaw := .error "network", prListRaw := .error "network",
    mergedListRaw := .error "network" }

/-- C6 witness: with all three queries failing, derivation still returns a
state and every derived sub-result is absent. -/
theorem derivePRPState_total_and_degrading_witness :
    ∃ st, derivePRPState prpW envAllFail = .ok st ∧ st.branch = none ∧
      st.reviewState = none ∧ st.prNumber = none ∧ st.prState = none := by
  obtain ⟨st, h1, h2, h3, h4⟩ := derivePRPState_total_and_degrading prpW envAllFail
  exact ⟨st, h1, h2 ⟨"network", rfl⟩, h3 ⟨"network", rfl⟩,
    (h4 ⟨"network", rfl⟩ ⟨"network", rfl⟩).1, (h4 ⟨"network", rfl⟩ ⟨"network", rfl⟩).2⟩

/-! ## C3 -/

/-- Fixture: no branch exists, but the merged-request search finds request
number 7 — the post-merge branch-deleted situation. -/
def envNoBranchMerged : DeriveEnv :=
  { enrichedExists := false, enrichedDir := "PRPs/enriched",
    branchesRaw := .ok "", prListRaw := .ok [],
    mergedListRaw := .ok [{ number := 7 }] }

/-- C3 counterexample: after the branch was deleted post-merge, the
secondary merged-request search produces a state whose review request is
present (`prNumber = 7`) while `branch` is absent — the claimed invariant
"review request present only if branch present" fails exactly on the
secondary-search states the claim singles out. -/
theorem derive_branchless_request_counterexample :
    (derivePRPState prpW envNoBranchMerged).map (fun st => (st.branch, st.prNumber)) =
      .ok (none, some 7) := by rfl

/-- C3 (amended): a review request found by the branch-based query is only
present when `branch` is present; a state carrying a review request without
a branch can only come from the secondary merged-request search, and its
lifecycle is then merged. -/
theorem derive_branchless_request_is_merged (prp : MasterPRP) (env : DeriveEnv)
    (st : PRPState) (h : derivePRPState prp env = .ok st)
    (hb : st.branch = none) (hn : st.prNumber ≠ none) :
    st.prState = some "merged" := by
  rcases derivedState_shape prp env st h with ⟨h1, _, _⟩ | ⟨pr, hbr, _⟩ | ⟨_, m, _, hm⟩
  · exact absurd h1 hn
  · exact absurd hb hbr
  · exact hm

/-- Fixture: the state derived in the post-merge branch-deleted situation. -/
def stMergedNoBranchW : PRPState :=
  { id := "A", title := "T", scope := "S", dependsOn := [], isEnriched := false,
    enrichedFile := none, branch := none, prNumber := some 7,
    prState := some "merged", reviewState := none }

/-- C3 witness: the amended statement applies to the concrete secondary
search state. -/
theorem derive_branchless_request_is_merged_witness :
    stMergedNoBranchW.prState = some "merged" :=
  derive_branchless_request_is_merged prpW envNoBranchMerged stMergedNoBranchW rfl rfl
    (by decide)

/-! ## Decision-mapping lemmas -/

/-- Non-membership gives a false `contains`. -/
theorem contains_eq_false_of_not_mem {l : List String} {a : String} (h : a ∉ l) :
    l.contains a = false := by
  rw [← Bool.not_eq_true]
  intro hc
  exact h (by simpa using hc)

/-- An `approved`/`lgtm` label (case-insensitive) forces decision approved. -/
theorem label_approved_wins {labels : List String} {d : Option String}
    (h : "approved" ∈ labels.map jsToLower ∨ "lgtm" ∈ labels.map jsToLower) :
    deriveDecision labels d = "approved" := by
  have hc : ((labels.map jsToLower).contains "approved" ||
      (labels.map jsToLower).contains "lgtm") = true := by
    rcases h with h | h <;> simp [h]
  unfold deriveDecision
  dsimp only
  rw [if_pos hc]

/-- A `changes-requested`/`needs-changes` label forces decision
changes_requested when no approval label is present. -/
theorem label_changes_wins {labels : List String} {d : Option String}
    (h1 : "approved" ∉ labels.map jsToLower) (h2 : "lgtm" ∉ labels.map jsToLower)
    (h : "changes-requested" ∈ labels.map jsToLower ∨
      "needs-changes" ∈ labels.map jsToLower) :
    deriveDecision labels d = "changes_requested" := by
  have hc1 : ((labels.map jsToLower).contains "approved" ||
      (labels.map jsToLower).contains "lgtm") = false := by
    rw [contains_eq_false_of_not_mem h1, contains_eq_false_of_not_mem h2]
    rfl
  have hc2 : ((labels.map jsToLower).contains "changes-requested" ||
      (labels.map jsToLower).contains "needs-changes") = true := by
    rcases h with h | h <;> simp [h]
  unfold deriveDecision
  dsimp only
  rw [if_neg (by rw [hc1]; simp), if_pos hc2]

/-- With no decision-bearing label, the decision is computed from the
platform review decision alone. -/
theorem no_label_fallback {labels : List String} (d : Option String)
    (h1 : "approved" ∉ labels.map jsToLower) (h2 : "lgtm" ∉ labels.map jsToLower)
    (h3 : "changes-requested" ∉ labels.map jsToLower)
    (h4 : "needs-changes" ∉ labels.map jsToLower) :
    deriveDecision labels d =
      (match d with
       | some dv =>
         if jsToUpper dv == "APPROVED" then "approved"
         else if jsToUpper dv == "CHANGES_REQUESTED" then "changes_requested"
         else if jsToUpper dv == "REVIEW_REQUIRED" then "pending"
         else "none"
       | none => "none") := by
  have hc1 : ((labels.map jsToLower).contains "approved" ||
      (labels.map jsToLower).contains "lgtm") = false := by
    rw [contains_eq_false_of_not_mem h1, contains_eq_false_of_not_mem h2]
    rfl
  have hc2 : ((labels.map jsToLower).contains "changes-requested" ||
      (labels.map jsToLower).contains "needs-changes") = false := by
    rw [contains_eq_false_of_not_mem h3, contains_eq_false_of_not_mem h4]
    rfl
  unfold deriveDecision
  dsimp only
  rw [if_neg (by rw [hc1]; simp), if_neg (by rw [hc2]; simp)]

/-! ## C4 -/

/-- C4: a decision-bearing label always takes precedence over the platform's
computed review decision (`approved`/`lgtm` → approved,
`changes-requested`/`needs-changes` → changes_requested, labels compared
case-insensitively); only without such a label does the platform decision
apply (APPROVED → approved, CHANGES_REQUESTED → changes_requested,
REVIEW_REQUIRED → pending, anything else → none).  Consequently an open
request with both label `approved` and platform decision changes_requested
derives as approved and is selected for Merge, not Revise. -/
theorem deriveDecision_label_precedence :
    (∀ (labels : List String) (d : Option String),
      ("approved" ∈ labels.map jsToLower ∨ "lgtm" ∈ labels.map jsToLower) →
      deriveDecision labels d = "approved") ∧
    (∀ (labels : List String) (d : Option String),
      "approved" ∉ labels.map jsToLower → "lgtm" ∉ labels.map jsToLower →
      ("changes-requested" ∈ labels.map jsToLower ∨
        "needs-changes" ∈ labels.map jsToLower) →
      deriveDecision labels d = "changes_requested") ∧
    (∀ (labels : List String) (d : Option String),
      "approved" ∉ labels.map jsToLower → "lgtm" ∉ labels.map jsToLower →
      "changes-requested" ∉ labels.map jsToLower →
      "needs-changes" ∉ labels.map jsToLower →
      (∀ s, d = some s → jsToUpper s = "APPROVED" →
        deriveDecision labels d = "approved") ∧
      (∀ s, d = some s → jsToUpper s = "CHANGES_REQUESTED" →
        deriveDecision labels d = "changes_requested") ∧
      (∀ s, d = some s → jsToUpper s = "REVIEW_REQUIRED" →
        deriveDecision labels d = "pending") ∧
      (d = none → deriveDecision labels d = "none") ∧
      (∀ s, d = some s → jsToUpper s ≠ "APPROVED" →
        jsToUpper s ≠ "CHANGES_REQUESTED" → jsToUpper s ≠ "REVIEW_REQUIRED" →
        deriveDecision labels d = "none")) ∧
    (∀ (prp : MasterPRP) (env : DeriveEnv) (b : String) (pr : PrListItem),
      env.branchesRaw = .ok b → jsTrim b ≠ "" →
      env.prListRaw = .ok [pr] →
      "approved" ∈ pr.labels.map jsToLower →
      pr.reviewDecision = some "CHANGES_REQUESTED" →
      jsToLower pr.state = "open" →
      ∃ st, derivePRPState prp env = .ok st ∧ st.reviewState = some "approved" ∧
        selectNext [st] [] = Action.merge st) := by
  refine ⟨fun labels d h => label_approved_wins h,
    fun labels d h1 h2 h => label_changes_wins h1 h2 h, ?_, ?_⟩
  · intro labels d h1 h2 h3 h4
    refine ⟨?_, ?_, ?_, ?_, ?_⟩
    · intro s hd hup
      subst hd
      rw [no_label_fallback _ h1 h2 h3 h4]
      simp [hup]
    · intro s hd hup
      subst hd
      rw [no_label_fallback _ h1 h2 h3 h4]
      simp [hup]
    · intro s hd hup
      subst hd
      rw [no_label_fallback _ h1 h2 h3 h4]
      simp [hup]
    · intro hd
      subst hd
      rw [no_label_fallback _ h1 h2 h3 h4]
    · intro s hd hne1 hne2 hne3
      subst hd
      rw [no_label_fallback _ h1 h2 h3 h4]
      simp [hne1, hne2, hne3]
  · intro prp env b pr hbr htrim hpr hlab hdec hstate
    have hbranch : branchPhase env (initState prp env) =
        { initState prp env with branch := some (firstListedBranch (jsTrim b)) } := by
      unfold branchPhase branchStep tryStep exec
      rw [hbr]
      simp [htrim]
    have hprph : prPhase env
          ({ initState prp env with branch := some (firstListedBranch (jsTrim b)) }) =
        { initState prp env with
          branch := some (firstListedBranch (jsTrim b)),
          prNumber := some pr.number,
          prState := some (jsToLower pr.state),
          reviewState := some (deriveDecision pr.labels pr.reviewDecision) } := by
      unfold prPhase prStep tryStep ghListSilent
      rw [hpr]
    have hder : derivePRPState prp env =
        .ok ({ initState prp env with
               branch := some (firstListedBranch (jsTrim b)),
               prNumber := some pr.number,
               prState := some (jsToLower pr.state),
               reviewState := some (deriveDecision pr.labels pr.reviewDecision) }) := by
      show Except.ok (mergedPhase env (prPhase env (branchPhase env (initState prp env)))) = _
      rw [hbranch, hprph]
      rfl
    have hreview : deriveDecision pr.labels pr.reviewDecision = "approved" :=
      label_approved_wins (Or.inl hlab)
    refine ⟨_, hder, ?_, ?_⟩
    · show some (deriveDecision pr.labels pr.reviewDecision) = some "approved"
      rw [hreview]
    · apply selectNext_eq_merge
      have hp : isOpenApproved
          ({ initState prp env with
             branch := some (firstListedBranch (jsTrim b)),
             prNumber := some pr.number,
             prState := some (jsToLower pr.state),
             reviewState := some (deriveDecision pr.labels pr.reviewDecision) }) = true := by
        unfold isOpenApproved
        simp [hstate, hreview]
      show List.find? isOpenApproved [_] = some _
      rw [List.find?_cons_of_pos _ hp]

/-- Fixture: an open request carrying label `Approved` and platform
decision CHANGES_REQUESTED. -/
def envLabelW : DeriveEnv :=
  { enrichedExists := false, enrichedDir := "PRPs/enriched",
    branchesRaw := .ok "origin/auto/a-t",
    prListRaw := .ok [{ number := 5, state := "OPEN",
                        reviewDecision := some "CHANGES_REQUESTED",
                        labels := ["Approved"] }],
    mergedListRaw := .ok [] }

/-- C4 witness: the label wins over the platform decision and the item is
selected for Merge. -/
theorem deriveDecision_label_precedence_witness :
    ∃ st, derivePRPState prpW envLabelW = .ok st ∧ st.reviewState = some "approved" ∧
      selectNext [st] [] = Action.merge st :=
  deriveDecision_label_precedence.2.2.2 prpW envLabelW "origin/auto/a-t"
    { number := 5, state := "OPEN", reviewDecision := some "CHANGES_REQUESTED",
      labels := ["Approved"] }
    rfl (by decide) rfl (by decide) rfl (by decide)

/-! ## C5 witness fixture -/

/-- Fixture: an item whose only dependency is neither merged nor
pre-completed. -/
def depBlockedW : PRPState :=
  { id := "D", title := "D", scope := "S", dependsOn := ["B"], isEnriched := true,
    enrichedFile := some "PRPs/enriched/D.md", branch := none, prNumber := none,
    prState := none, reviewState := none }

/-- C5 witness: the dependency-blocked item is not selected. -/
theorem findNextPRP_dependency_gating_witness :
    findNextPRP [depBlockedW] [] ≠ some depBlockedW ∧
    selectNext [depBlockedW] [] ≠ Action.enrich depBlockedW ∧
    selectNext [depBlockedW] [] ≠ Action.execute depBlockedW :=
  findNextPRP_dependency_gating [depBlockedW] [] depBlockedW "B" (by decide) (by decide)
    (by decide)

/-! ## C9 -/

/-- A state that `derivePRPState` can produce. -/
def DerivedState (s : PRPState) : Prop :=
  ∃ prp env, derivePRPState prp env = .ok s

/-- C9: whenever the branch-based review query sets a lifecycle other than
the secondary search's merged, it also sets a decision, and that decision is
one of approved, changes_requested, pending, none; consequently for derived
states one of the Merge/Revise/Wait tiers always matches an open request,
so the Enrich-or-Execute tier is reached only when no open request exists. -/
theorem open_request_blocks_new_work (states : List PRPState) (completed : List String) :
    (∀ s, DerivedState s → ∀ lc, s.prState = some lc → lc ≠ "merged" →
      s.reviewState = some "approved" ∨ s.reviewState = some "changes_requested" ∨
      s.reviewState = some "pending" ∨ s.reviewState = some "none") ∧
    ((∀ s ∈ states, DerivedState s) → (∃ s ∈ states, s.prState = some "open") →
      (∃ t, selectNext states completed = Action.merge t) ∨
      (∃ t, selectNext states completed = Action.revise t) ∨
      (∃ t, selectNext states completed = Action.wait t)) := by
  have part1 : ∀ s, DerivedState s → ∀ lc, s.prState = some lc → lc ≠ "merged" →
      s.reviewState = some "approved" ∨ s.reviewState = some "changes_requested" ∨
      s.reviewState = some "pending" ∨ s.reviewState = some "none" := by
    intro s hd lc hlc hne
    obtain ⟨prp, env, hder⟩ := hd
    rcases derivedState_shape prp env s hder with ⟨_, h1, _⟩ | ⟨pr, _, _, _, hrs⟩ |
      ⟨_, m, _, hm⟩
    · rw [h1] at hlc
      exact absurd hlc (by simp)
    · rcases deriveDecision_mem pr.labels pr.reviewDecision with h | h | h | h
      · exact Or.inl (by rw [hrs, h])
      · exact Or.inr (Or.inl (by rw [hrs, h]))
      · exact Or.inr (Or.inr (Or.inl (by rw [hrs, h])))
      · exact Or.inr (Or.inr (Or.inr (by rw [hrs, h])))
    · rw [hm] at hlc
      injection hlc with h2
      exact absurd h2.symm hne
  refine ⟨part1, ?_⟩
  rintro hder ⟨s, hs, hsopen⟩
  have hdec := part1 s (hder s hs) "open" hsopen (by decide)
  cases hA : findApprovedPRP states with
  | some t => exact Or.inl ⟨t, selectNext_eq_merge hA⟩
  | none =>
    cases hC : findChangesRequestedPRP states with
    | some t => exact Or.inr (Or.inl ⟨t, selectNext_eq_revise hA hC⟩)
    | none =>
      have hpend : isOpenPendingReview s = true := by
        rcases hdec with h | h | h | h
        · exact absurd (show isOpenApproved s = true by
            simp [isOpenApproved, hsopen, h]) (List.find?_eq_none.mp hA s hs)
        · exact absurd (show isOpenChangesRequested s = true by
            simp [isOpenChangesRequested, hsopen, h]) (List.find?_eq_none.mp hC s hs)
        · simp [isOpenPendingReview, hsopen, h]
        · simp [isOpenPendingReview, hsopen, h]
      obtain ⟨t, ht, _⟩ := find?_isSome_of_mem hs hpend
      exact Or.inr (Or.inr ⟨t, selectNext_eq_wait hA hC ht⟩)

/-- Fixture: environment producing an open request with no labels and no
platform decision. -/
def envOpenW : DeriveEnv :=
  { enrichedExists := false, enrichedDir := "PRPs/enriched",
    branchesRaw := .ok "origin/auto/a-t",
    prListRaw := .ok [{ number := 12, state := "OPEN", reviewDecision := none,
                        labels := [] }],
    mergedListRaw := .ok [] }

/-- Fixture: the state derived from `envOpenW`. -/
def stOpenW : PRPState :=
  { id := "A", title := "T", scope := "S", dependsOn := [], isEnriched := false,
    enrichedFile := none, branch := some "auto/a-t", prNumber := some 12,
    prState := some "open", reviewState := some "none" }

/-- C9 witness: with one derived open state, the selector stays inside the
Merge/Revise/Wait tiers. -/
theorem open_request_blocks_new_work_witness :
    (∃ t, selectNext [stOpenW] [] = Action.merge t) ∨
    (∃ t, selectNext [stOpenW] [] = Action.revise t) ∨
    (∃ t, selectNext [stOpenW] [] = Action.wait t) :=
  (open_request_blocks_new_work [stOpenW] []).2
    (fun s hs => ⟨prpW, envOpenW, by rw [List.mem_singleton] at hs; rw [hs]; rfl⟩)
    ⟨stOpenW, by decide, rfl⟩

/-! ## C8 -/

/-- C8: when the collected review feedback is empty, the Revise workflow
returns normally as a no-op — before any branch checkout, coding-agent
invocation, commit or push. -/
theorem runRevision_empty_feedback_noop (prp : PRPState) (env : RevisionEnv)
    (d : PrViewData) (hview : env.prViewRaw = .ok d)
    (hempty : jsTrim (allFeedbackText d (inlineCommentsOf env)) = "") :
    runRevision prp env = .ok (if env.botConfigured then [RevOp.configureBot] else []) ∧
    ∀ ops, runRevision prp env = .ok ops →
      (∀ b, RevOp.checkoutBranch b ∉ ops) ∧ RevOp.runAgent ∉ ops ∧
      RevOp.commit ∉ ops ∧ RevOp.push ∉ ops := by
  have hmain : runRevision prp env =
      .ok (if env.botConfigured then [RevOp.configureBot] else []) := by
    unfold runRevision
    rw [hview]
    dsimp only
    rw [if_pos (show (jsTrim (allFeedbackText d (inlineCommentsOf env)) == "") = true by
      rw [hempty]; rfl)]
  refine ⟨hmain, ?_⟩
  intro ops hops
  rw [hmain] at hops
  injection hops with h
  subst h
  by_cases hb : env.botConfigured <;> simp [hb]

/-- Fixture: a revision environment with no feedback anywhere. -/
def revEnvW : RevisionEnv :=
  { botConfigured := false, prViewRaw := .ok { reviews := [], comments := [] },
    inlineRaw := .ok "", fetchRaw := .ok "", checkoutRaw := .ok "", pullRaw := .ok "",
    claudeSuccess := true, addRaw := .ok "", statusRaw := .ok "", commitRaw := .ok "",
    pushRaw := .ok "", commentRaw := .ok "", checkoutDefaultRaw := .ok "" }

/-- C8 witness: with no reviews, no inline comments and no discussion, the
workflow is a pure no-op. -/
theorem runRevision_empty_feedback_noop_witness :
    runRevision preCompletedOnly revEnvW = .ok [] :=
  (runRevision_empty_feedback_noop preCompletedOnly revEnvW
    { reviews := [], comments := [] } rfl (by decide)).1

end PRP
